import Mathlib

/-!
Verification of the panser streaming transcoder (src/src/lib.rs, src/src/panser.rs).

This file shallowly embeds the data model and the transcode pipeline of the
repository.  Byte streams are `List Nat` (each element < 256 where produced by
the code), machine integers are `Nat`/`Int` with explicit `% 2^w` at the points
where the Rust code casts, and fallible code returns `Except`.  Rust panics are
modelled explicitly: `Option` (with `none` = panic) for `to_framing_delimited`,
and the `POutcome.panic` constructor for the producer thread.

The per-format codec crates (serde_json, rmp_serde, bincode, ...) are external
collaborators of the repository; the JSON decoder (serde_json::from_slice into
`Value`) and the MessagePack encoder (rmp_serde::to_vec of a `Value`) are
modelled here at the wire-format level because concrete claims depend on their
bytes, while the remaining codecs (never exercised by any claim, and excluded
from the specification's scope) are kept as named placeholder functions.
-/

namespace Panser

/-- The available framing options (lib.rs `enum Framing`). -/
inductive Framing where
  | Sized
  | Delimited (d : Nat)
deriving DecidableEq

/-- The different input (deserialization) formats (lib.rs `enum FromFormat`). -/
inductive FromFormat where
  | Bincode | Cbor | Envy | Hjson | Json | Msgpack | Pickle | Toml | Url | Yaml
deriving DecidableEq

/-- The different output (serialization) formats (lib.rs `enum ToFormat`). -/
inductive ToFormat where
  | Bincode | Cbor | Hjson | Json | Msgpack | Pickle | Toml | Url | Yaml
deriving DecidableEq

/-- The radix for displaying serialized binary data (lib.rs `enum Radix`). -/
inductive Radix where
  | Binary | Decimal | Hexadecimal | Octal
deriving DecidableEq

/-- The kind carried by `std::num::ParseIntError`, as far as `u8::from_str_radix`
can produce it. -/
inductive ParseIntKind where
  | empty | invalidDigit | posOverflow
deriving DecidableEq

/-- The error type (lib.rs `enum Error`).  Payloads of the wrapped third-party
error types are modelled by their display message. -/
inductive Error where
  | Bincode (msg : String)
  | Cbor (msg : String)
  | Envy (msg : String)
  | Eof
  | Generic (msg : String)
  | Io (msg : String)
  | Json (msg : String)
  | MsgpackDecode (msg : String)
  | MsgpackEncode (msg : String)
  | ParseInt (k : ParseIntKind)
  | Pickle (msg : String)
  | TomlDecode (msg : String)
  | TomlEncode (msg : String)
  | Utf8 (msg : String)
  | UrlDecode (msg : String)
  | UrlEncode (msg : String)
  | Yaml (msg : String)
deriving DecidableEq

/-- `Error::code` (lib.rs): the process exit code classifying the error. -/
def Error.code : Error → Int
  | .Bincode _ => 1
  | .Cbor _ => 1
  | .Envy _ => 1
  | .Eof => 0
  | .Generic _ => 2
  | .Io _ => 3
  | .Json _ => 1
  | .MsgpackDecode _ => 1
  | .MsgpackEncode _ => 1
  | .ParseInt _ => 4
  | .Pickle _ => 1
  | .TomlDecode _ => 1
  | .TomlEncode _ => 1
  | .Utf8 _ => 5
  | .UrlDecode _ => 1
  | .UrlEncode _ => 1
  | .Yaml _ => 1

/-- The display message of a `ParseIntError`, per the Rust standard library. -/
def ParseIntKind.display : ParseIntKind → String
  | .empty => "cannot parse integer from empty string"
  | .invalidDigit => "invalid digit found in string"
  | .posOverflow => "number too large to fit in target type"

/-- `impl Display for Error` (lib.rs): delegates to the wrapped error's display;
`Eof` has a fixed message. -/
def Error.display : Error → String
  | .Bincode m => m
  | .Cbor m => m
  | .Envy m => m
  | .Eof => "End of file reached"
  | .Generic m => m
  | .Io m => m
  | .Json m => m
  | .MsgpackDecode m => m
  | .MsgpackEncode m => m
  | .ParseInt k => k.display
  | .Pickle m => m
  | .TomlDecode m => m
  | .TomlEncode m => m
  | .Utf8 m => m
  | .UrlDecode m => m
  | .UrlEncode m => m
  | .Yaml m => m

/-- The outcome of a piece of Rust code that can return a value, return an
error, or panic. -/
inductive POutcome (α : Type) where
  | ok (a : α)
  | err (e : Error)
  | panic
deriving DecidableEq

/-- `impl From Box Any for Error` (lib.rs lines 578-585): a joined panic
payload that downcasts to `Error` is re-wrapped as `Generic` of its display
message; any other payload becomes the fixed generic message.  `some e` models
a payload holding the `Error` value `e`, `none` any other payload. -/
def from_any : Option Error → Error
  | some e => Error.Generic e.display
  | none => Error.Generic "Unknown error: Any"

/-- The digit value of a character, as `char::to_digit`: `0-9`, then letters
case-insensitively from 10. -/
def digit_val (c : Char) : Option Nat :=
  if '0' ≤ c ∧ c ≤ '9' then some (c.toNat - 48)
  else if 'a' ≤ c ∧ c ≤ 'z' then some (c.toNat - 87)
  else if 'A' ≤ c ∧ c ≤ 'Z' then some (c.toNat - 55)
  else none

/-- The digit-consuming loop of `u8::from_str_radix`: left-to-right, each digit
must be valid for the radix, with an overflow check against `u8` at every
step. -/
def parse_digits (radix : Nat) : List Char → Nat → Except Error Nat
  | [], acc => .ok acc
  | c :: r, acc =>
    match digit_val c with
    | none => .error (.ParseInt .invalidDigit)
    | some v =>
      if v ≥ radix then .error (.ParseInt .invalidDigit)
      else if acc * radix + v > 255 then .error (.ParseInt .posOverflow)
      else parse_digits radix r (acc * radix + v)

/-- `u8::from_str_radix` (Rust standard library): empty input is an `Empty`
error; a leading `+` is allowed; a leading `-` is an `InvalidDigit` error for
an unsigned target; then the digit loop runs. -/
def from_str_radix_u8 (s : List Char) (radix : Nat) : Except Error Nat :=
  match s with
  | [] => .error (.ParseInt .empty)
  | ['+'] => .error (.ParseInt .invalidDigit)
  | ['-'] => .error (.ParseInt .invalidDigit)
  | '-' :: _ => .error (.ParseInt .invalidDigit)
  | '+' :: digits => parse_digits radix digits 0
  | digits => parse_digits radix digits 0

/-- Rust `str::len` of a character list: the UTF-8 byte length, which is what
`s.len()` returns in `to_framing_delimited` (the source mixes it with
char-based iteration). -/
def rust_str_len (s : List Char) : Nat := (s.map Char.utf8Size).sum

/-- `to_framing_delimited` (panser.rs lines 376-385).  The source calls
`s.chars().last().unwrap()`, so the empty string panics: that is modelled by
the outer `Option`, with `none` = panic.  A last character of `b`, `d`, `h`,
or `o` (these exact lowercase characters only) selects the radix and the
preceding `s.len() - 1` characters are parsed; any other last character makes
the whole string parse as hexadecimal. -/
def to_framing_delimited (s : List Char) : Option (Except Error (Option Framing)) :=
  match s.getLast? with
  | none => none
  | some c =>
    let value : Except Error Nat :=
      if c = 'b' then from_str_radix_u8 (s.take (rust_str_len s - 1)) 2
      else if c = 'd' then from_str_radix_u8 (s.take (rust_str_len s - 1)) 10
      else if c = 'h' then from_str_radix_u8 (s.take (rust_str_len s - 1)) 16
      else if c = 'o' then from_str_radix_u8 (s.take (rust_str_len s - 1)) 8
      else from_str_radix_u8 s 16
    match value with
    | .ok v => some (.ok (some (Framing.Delimited v)))
    | .error e => some (.error e)

/-! ## The intermediate value model

`serde_json::Value` is the universal container every format is deserialized
into (panser.rs `deserialize`).  Strings are carried as their UTF-8 byte
sequences (`List Nat`), matching Rust `String` at the byte level; object keys
are kept sorted byte-lexicographically with last-write-wins on duplicates,
matching serde_json's default `BTreeMap` map representation. -/

/-- The numeric payload of a `serde_json::Number`.  Integer JSON numerals that
fit `u64` / `i64` are kept exactly as serde_json does; every other numeral
(fraction, exponent, negative zero, out-of-range integer) becomes an `f64` in
serde_json and is kept here in its syntactic decimal form, since no claim
inspects floating-point values. -/
inductive JNum where
  | uint (n : Nat)
  | sint (n : Int)
  | float (neg : Bool) (ip : Nat) (frac : List Nat) (ex : Int)
deriving DecidableEq

/-- `serde_json::Value`: the format-neutral tagged value tree. -/
inductive Value where
  | null
  | bool (b : Bool)
  | num (n : JNum)
  | str (s : List Nat)
  | arr (xs : List Value)
  | obj (kvs : List (List Nat × Value))

/-- Byte-lexicographic strict order on byte strings (Rust `String` ordering,
used by the `BTreeMap` holding object members). -/
def key_lt : List Nat → List Nat → Bool
  | [], [] => false
  | [], _ :: _ => true
  | _ :: _, [] => false
  | a :: as, b :: bs => if a < b then true else if a > b then false else key_lt as bs

/-- Sorted-map insertion with last-write-wins, modelling
`BTreeMap::insert` on object members. -/
def map_insert (k : List Nat) (v : Value) : List (List Nat × Value) → List (List Nat × Value)
  | [] => [(k, v)]
  | (k', v') :: r =>
    if k = k' then (k, v) :: r
    else if key_lt k k' then (k, v) :: (k', v') :: r
    else (k', v') :: map_insert k v r

mutual

/-- Decidable equality on `Value` (needed so concrete pipeline outcomes can be
settled by `decide`). -/
def Value.beqv : Value → Value → Bool
  | .null, .null => true
  | .bool a, .bool b => a = b
  | .num a, .num b => a = b
  | .str a, .str b => a = b
  | .arr a, .arr b => Value.beqList a b
  | .obj a, .obj b => Value.beqPairs a b
  | _, _ => false

/-- Elementwise equality on value lists. -/
def Value.beqList : List Value → List Value → Bool
  | [], [] => true
  | a :: as, b :: bs => Value.beqv a b && Value.beqList as bs
  | _, _ => false

/-- Elementwise equality on object member lists. -/
def Value.beqPairs : List (List Nat × Value) → List (List Nat × Value) → Bool
  | [], [] => true
  | (ka, va) :: as, (kb, vb) :: bs => ka = kb && Value.beqv va vb && Value.beqPairs as bs
  | _, _ => false

end

mutual

theorem Value.beqv_refl : ∀ a : Value, Value.beqv a a = true
  | .null => rfl
  | .bool b => by simp [Value.beqv]
  | .num n => by simp [Value.beqv]
  | .str s => by simp [Value.beqv]
  | .arr xs => by simp [Value.beqv, Value.beqList_refl xs]
  | .obj kvs => by simp [Value.beqv, Value.beqPairs_refl kvs]

theorem Value.beqList_refl : ∀ xs : List Value, Value.beqList xs xs = true
  | [] => rfl
  | a :: as => by simp [Value.beqList, Value.beqv_refl a, Value.beqList_refl as]

theorem Value.beqPairs_refl : ∀ kvs : List (List Nat × Value), Value.beqPairs kvs kvs = true
  | [] => rfl
  | (k, v) :: r => by simp [Value.beqPairs, Value.beqv_refl v, Value.beqPairs_refl r]

end

mutual

theorem Value.beqv_eq : ∀ a b : Value, Value.beqv a b = true → a = b
  | .null, .null, _ => rfl
  | .bool a, .bool b, h => by simp [Value.beqv] at h; simp [h]
  | .num a, .num b, h => by simp [Value.beqv] at h; simp [h]
  | .str a, .str b, h => by simp [Value.beqv] at h; simp [h]
  | .arr a, .arr b, h => by
      simp only [Value.beqv] at h
      exact congrArg Value.arr (Value.beqList_eq a b h)
  | .obj a, .obj b, h => by
      simp only [Value.beqv] at h
      exact congrArg Value.obj (Value.beqPairs_eq a b h)
  | .null, .bool _, h => by simp [Value.beqv] at h
  | .null, .num _, h => by simp [Value.beqv] at h
  | .null, .str _, h => by simp [Value.beqv] at h
  | .null, .arr _, h => by simp [Value.beqv] at h
  | .null, .obj _, h => by simp [Value.beqv] at h
  | .bool _, .null, h => by simp [Value.beqv] at h
  | .bool _, .num _, h => by simp [Value.beqv] at h
  | .bool _, .str _, h => by simp [Value.beqv] at h
  | .bool _, .arr _, h => by simp [Value.beqv] at h
  | .bool _, .obj _, h => by simp [Value.beqv] at h
  | .num _, .null, h => by simp [Value.beqv] at h
  | .num _, .bool _, h => by simp [Value.beqv] at h
  | .num _, .str _, h => by simp [Value.beqv] at h
  | .num _, .arr _, h => by simp [Value.beqv] at h
  | .num _, .obj _, h => by simp [Value.beqv] at h
  | .str _, .null, h => by simp [Value.beqv] at h
  | .str _, .bool _, h => by simp [Value.beqv] at h
  | .str _, .num _, h => by simp [Value.beqv] at h
  | .str _, .arr _, h => by simp [Value.beqv] at h
  | .str _, .obj _, h => by simp [Value.beqv] at h
  | .arr _, .null, h => by simp [Value.beqv] at h
  | .arr _, .bool _, h => by simp [Value.beqv] at h
  | .arr _, .num _, h => by simp [Value.beqv] at h
  | .arr _, .str _, h => by simp [Value.beqv] at h
  | .arr _, .obj _, h => by simp [Value.beqv] at h
  | .obj _, .null, h => by simp [Value.beqv] at h
  | .obj _, .bool _, h => by simp [Value.beqv] at h
  | .obj _, .num _, h => by simp [Value.beqv] at h
  | .obj _, .str _, h => by simp [Value.beqv] at h
  | .obj _, .arr _, h => by simp [Value.beqv] at h

theorem Value.beqList_eq : ∀ a b : List Value, Value.beqList a b = true → a = b
  | [], [], _ => rfl
  | x :: xs, y :: ys, h => by
      simp only [Value.beqList, Bool.and_eq_true] at h
      rw [Value.beqv_eq x y h.1, Value.beqList_eq xs ys h.2]
  | [], _ :: _, h => by simp [Value.beqList] at h
  | _ :: _, [], h => by simp [Value.beqList] at h

theorem Value.beqPairs_eq :
    ∀ a b : List (List Nat × Value), Value.beqPairs a b = true → a = b
  | [], [], _ => rfl
  | (ka, va) :: xs, (kb, vb) :: ys, h => by
      simp only [Value.beqPairs, Bool.and_eq_true] at h
      rw [of_decide_eq_true h.1.1, Value.beqv_eq va vb h.1.2, Value.beqPairs_eq xs ys h.2]
  | [], _ :: _, h => by simp [Value.beqPairs] at h
  | _ :: _, [], h => by simp [Value.beqPairs] at h

end

instance : DecidableEq Value := fun a b =>
  if h : Value.beqv a b = true then
    isTrue (Value.beqv_eq a b h)
  else
    isFalse (fun he => h (he ▸ Value.beqv_refl a))

/-! ## The JSON codec (serde_json::from_slice into `Value`)

`deserialize` sends both the `Json` and the `Hjson` input formats to
`serde_json::from_slice`; the decoder is modelled here at the byte level,
following the JSON grammar that serde_json implements: leading/trailing
whitespace allowed, strict UTF-8 and escape validation inside strings, no
leading zeros, trailing bytes after the value are an error.  The error
messages are modelled (shortened) versions of serde_json's; no claim depends
on message text produced by the external crate beyond it being carried
through unchanged. -/

/-- JSON whitespace skipping (space, tab, line feed, carriage return). -/
def skip_ws : List Nat → List Nat
  | [] => []
  | b :: r => if b = 0x20 ∨ b = 0x09 ∨ b = 0x0A ∨ b = 0x0D then skip_ws r else b :: r

/-- Strict UTF-8 validity of a byte sequence (Rust `str::from_utf8`):
no overlong forms, no surrogates, code points at most 0x10FFFF. -/
def utf8_valid : List Nat → Bool
  | [] => true
  | b :: r =>
    if b < 0x80 then utf8_valid r
    else if 0xC2 ≤ b ∧ b ≤ 0xDF then
      match r with
      | c1 :: r' => if 0x80 ≤ c1 ∧ c1 ≤ 0xBF then utf8_valid r' else false
      | [] => false
    else if b = 0xE0 then
      match r with
      | c1 :: c2 :: r' =>
        if (0xA0 ≤ c1 ∧ c1 ≤ 0xBF) ∧ (0x80 ≤ c2 ∧ c2 ≤ 0xBF) then utf8_valid r' else false
      | _ => false
    else if (0xE1 ≤ b ∧ b ≤ 0xEC) ∨ b = 0xEE ∨ b = 0xEF then
      match r with
      | c1 :: c2 :: r' =>
        if (0x80 ≤ c1 ∧ c1 ≤ 0xBF) ∧ (0x80 ≤ c2 ∧ c2 ≤ 0xBF) then utf8_valid r' else false
      | _ => false
    else if b = 0xED then
      match r with
      | c1 :: c2 :: r' =>
        if (0x80 ≤ c1 ∧ c1 ≤ 0x9F) ∧ (0x80 ≤ c2 ∧ c2 ≤ 0xBF) then utf8_valid r' else false
      | _ => false
    else if b = 0xF0 then
      match r with
      | c1 :: c2 :: c3 :: r' =>
        if (0x90 ≤ c1 ∧ c1 ≤ 0xBF) ∧ (0x80 ≤ c2 ∧ c2 ≤ 0xBF) ∧ (0x80 ≤ c3 ∧ c3 ≤ 0xBF) then
          utf8_valid r'
        else false
      | _ => false
    else if 0xF1 ≤ b ∧ b ≤ 0xF3 then
      match r with
      | c1 :: c2 :: c3 :: r' =>
        if (0x80 ≤ c1 ∧ c1 ≤ 0xBF) ∧ (0x80 ≤ c2 ∧ c2 ≤ 0xBF) ∧ (0x80 ≤ c3 ∧ c3 ≤ 0xBF) then
          utf8_valid r'
        else false
      | _ => false
    else if b = 0xF4 then
      match r with
      | c1 :: c2 :: c3 :: r' =>
        if (0x80 ≤ c1 ∧ c1 ≤ 0x8F) ∧ (0x80 ≤ c2 ∧ c2 ≤ 0xBF) ∧ (0x80 ≤ c3 ∧ c3 ≤ 0xBF) then
          utf8_valid r'
        else false
      | _ => false
    else false

/-- UTF-8 encoding of a Unicode code point. -/
def utf8_enc (cp : Nat) : List Nat :=
  if cp < 0x80 then [cp]
  else if cp < 0x800 then [0xC0 + cp / 64, 0x80 + cp % 64]
  else if cp < 0x10000 then [0xE0 + cp / 4096, 0x80 + cp / 64 % 64, 0x80 + cp % 64]
  else [0xF0 + cp / 262144, 0x80 + cp / 4096 % 64, 0x80 + cp / 64 % 64, 0x80 + cp % 64]

/-- Hexadecimal value of an ASCII byte, if any. -/
def hex_val (b : Nat) : Option Nat :=
  if 0x30 ≤ b ∧ b ≤ 0x39 then some (b - 0x30)
  else if 0x61 ≤ b ∧ b ≤ 0x66 then some (b - 0x61 + 10)
  else if 0x41 ≤ b ∧ b ≤ 0x46 then some (b - 0x41 + 10)
  else none

/-- The body of a JSON string after the opening quote: plain bytes are copied
(control characters rejected), escapes are decoded (with surrogate-pair
handling for hex escapes), and the accumulated bytes must be valid UTF-8 at
the closing quote. -/
def parse_string_bytes (acc : List Nat) : List Nat → Except String (List Nat × List Nat)
  | [] => .error "EOF while parsing a string"
  | b :: r =>
    if b = 0x22 then
      if utf8_valid acc then .ok (acc, r) else .error "invalid unicode code point"
    else if b = 0x5C then
      match r with
      | [] => .error "EOF while parsing a string"
      | e :: r2 =>
        if e = 0x22 then parse_string_bytes (acc ++ [0x22]) r2
        else if e = 0x5C then parse_string_bytes (acc ++ [0x5C]) r2
        else if e = 0x2F then parse_string_bytes (acc ++ [0x2F]) r2
        else if e = 0x62 then parse_string_bytes (acc ++ [0x08]) r2
        else if e = 0x66 then parse_string_bytes (acc ++ [0x0C]) r2
        else if e = 0x6E then parse_string_bytes (acc ++ [0x0A]) r2
        else if e = 0x72 then parse_string_bytes (acc ++ [0x0D]) r2
        else if e = 0x74 then parse_string_bytes (acc ++ [0x09]) r2
        else if e = 0x75 then
          match r2 with
          | h1 :: h2 :: h3 :: h4 :: r3 =>
            match hex_val h1, hex_val h2, hex_val h3, hex_val h4 with
            | some x1, some x2, some x3, some x4 =>
              let cp := ((x1 * 16 + x2) * 16 + x3) * 16 + x4
              if 0xD800 ≤ cp ∧ cp ≤ 0xDBFF then
                match r3 with
                | 0x5C :: 0x75 :: g1 :: g2 :: g3 :: g4 :: r5 =>
                  match hex_val g1, hex_val g2, hex_val g3, hex_val g4 with
                  | some y1, some y2, some y3, some y4 =>
                    let lo := ((y1 * 16 + y2) * 16 + y3) * 16 + y4
                    if 0xDC00 ≤ lo ∧ lo ≤ 0xDFFF then
                      parse_string_bytes
                        (acc ++ utf8_enc (0x10000 + (cp - 0xD800) * 1024 + (lo - 0xDC00))) r5
                    else .error "lone leading surrogate in hex escape"
                  | _, _, _, _ => .error "invalid escape"
                | _ => .error "unexpected end of hex escape"
              else if 0xDC00 ≤ cp ∧ cp ≤ 0xDFFF then .error "lone trailing surrogate"
              else parse_string_bytes (acc ++ utf8_enc cp) r3
            | _, _, _, _ => .error "invalid escape"
          | _ => .error "invalid escape"
        else .error "invalid escape"
    else if b < 0x20 then .error "control character in string"
    else parse_string_bytes (acc ++ [b]) r

/-- Splits a leading run of ASCII decimal digit bytes off a byte stream. -/
def take_digits : List Nat → List Nat × List Nat
  | [] => ([], [])
  | b :: r =>
    if 0x30 ≤ b ∧ b ≤ 0x39 then
      let (ds, rest) := take_digits r
      (b :: ds, rest)
    else ([], b :: r)

/-- Decimal value of a digit-byte run. -/
def digits_to_nat (ds : List Nat) : Nat := ds.foldl (fun a b => a * 10 + (b - 48)) 0

/-- Classification of a parsed JSON numeral, as serde_json performs it:
plain nonnegative integers fitting `u64` stay `u64`; plain negative integers
fitting `i64` stay `i64` (negative zero excepted); everything else becomes an
`f64`, kept here in syntactic decimal form. -/
def classify_num (neg : Bool) (ip : Nat) (frac : Option (List Nat))
    (ex : Option (Bool × Nat)) : JNum :=
  match frac, ex with
  | none, none =>
    if neg then
      if ip = 0 then JNum.float true 0 [] 0
      else if ip ≤ 2 ^ 63 then JNum.sint (-(ip : Int))
      else JNum.float true ip [] 0
    else if ip < 2 ^ 64 then JNum.uint ip
    else JNum.float false ip [] 0
  | _, _ =>
    let fds := (frac.getD []).map (fun b => b - 48)
    let e : Int :=
      match ex with
      | none => 0
      | some (true, n) => -(n : Int)
      | some (false, n) => (n : Int)
    JNum.float neg ip fds e

/-- The optional exponent part of a JSON numeral. -/
def parse_exp_part (neg : Bool) (ip : Nat) (frac : Option (List Nat)) (s : List Nat) :
    Except String (JNum × List Nat) :=
  match s with
  | b :: r =>
    if b = 0x65 ∨ b = 0x45 then
      let (esign, r2) :=
        match r with
        | 0x2B :: rr => (false, rr)
        | 0x2D :: rr => (true, rr)
        | _ => (false, r)
      let (ds, rest) := take_digits r2
      if ds = [] then .error "invalid number"
      else .ok (classify_num neg ip frac (some (esign, digits_to_nat ds)), rest)
    else .ok (classify_num neg ip frac none, b :: r)
  | [] => .ok (classify_num neg ip frac none, [])

/-- The optional fraction part of a JSON numeral, then the exponent part. -/
def parse_frac_exp (neg : Bool) (ip : Nat) (s : List Nat) :
    Except String (JNum × List Nat) :=
  match s with
  | 0x2E :: r =>
    let (ds, rest) := take_digits r
    if ds = [] then .error "invalid number"
    else parse_exp_part neg ip (some ds) rest
  | _ => parse_exp_part neg ip none s

/-- A JSON numeral: optional minus, integer part with no leading zeros, then
fraction and exponent. -/
def parse_number (s : List Nat) : Except String (JNum × List Nat) :=
  let (neg, s1) :=
    match s with
    | 0x2D :: r => (true, r)
    | _ => (false, s)
  match s1 with
  | [] => .error "EOF while parsing a value"
  | b :: r =>
    if b = 0x30 then
      match r with
      | b2 :: _ =>
        if 0x30 ≤ b2 ∧ b2 ≤ 0x39 then .error "invalid number"
        else parse_frac_exp neg 0 r
      | [] => parse_frac_exp neg 0 []
    else if 0x31 ≤ b ∧ b ≤ 0x39 then
      let (ds, rest) := take_digits r
      parse_frac_exp neg (digits_to_nat (b :: ds)) rest
    else .error "invalid number"

mutual

/-- A JSON value, dispatching on the first byte (no leading whitespace:
callers skip it). -/
def parse_value (fuel : Nat) (s : List Nat) : Except String (Value × List Nat) :=
  match fuel with
  | 0 => .error "recursion limit exceeded"
  | fuel + 1 =>
    match s with
    | [] => .error "EOF while parsing a value"
    | b :: r =>
      if b = 0x6E then
        match r with
        | 0x75 :: 0x6C :: 0x6C :: r2 => .ok (Value.null, r2)
        | _ => .error "expected ident"
      else if b = 0x74 then
        match r with
        | 0x72 :: 0x75 :: 0x65 :: r2 => .ok (Value.bool true, r2)
        | _ => .error "expected ident"
      else if b = 0x66 then
        match r with
        | 0x61 :: 0x6C :: 0x73 :: 0x65 :: r2 => .ok (Value.bool false, r2)
        | _ => .error "expected ident"
      else if b = 0x22 then
        match parse_string_bytes [] r with
        | .ok (cs, r2) => .ok (Value.str cs, r2)
        | .error m => .error m
      else if b = 0x5B then parse_array fuel (skip_ws r)
      else if b = 0x7B then parse_object fuel (skip_ws r)
      else if b = 0x2D ∨ (0x30 ≤ b ∧ b ≤ 0x39) then
        match parse_number (b :: r) with
        | .ok (n, r2) => .ok (Value.num n, r2)
        | .error m => .error m
      else .error "expected value"

/-- The inside of a JSON array after the opening bracket and whitespace. -/
def parse_array (fuel : Nat) (s : List Nat) : Except String (Value × List Nat) :=
  match fuel with
  | 0 => .error "recursion limit exceeded"
  | fuel + 1 =>
    match s with
    | 0x5D :: r => .ok (Value.arr [], r)
    | _ => parse_array_elems fuel s []

/-- Comma-separated array elements. -/
def parse_array_elems (fuel : Nat) (s : List Nat) (acc : List Value) :
    Except String (Value × List Nat) :=
  match fuel with
  | 0 => .error "recursion limit exceeded"
  | fuel + 1 =>
    match parse_value fuel s with
    | .error m => .error m
    | .ok (v, r) =>
      match skip_ws r with
      | 0x2C :: r2 => parse_array_elems fuel (skip_ws r2) (acc ++ [v])
      | 0x5D :: r2 => .ok (Value.arr (acc ++ [v]), r2)
      | [] => .error "EOF while parsing a list"
      | _ => .error "expected comma or closing bracket"

/-- The inside of a JSON object after the opening brace and whitespace. -/
def parse_object (fuel : Nat) (s : List Nat) : Except String (Value × List Nat) :=
  match fuel with
  | 0 => .error "recursion limit exceeded"
  | fuel + 1 =>
    match s with
    | 0x7D :: r => .ok (Value.obj [], r)
    | _ => parse_object_elems fuel s []

/-- Comma-separated object members; duplicate keys resolve last-write-wins
into the sorted member map. -/
def parse_object_elems (fuel : Nat) (s : List Nat) (acc : List (List Nat × Value)) :
    Except String (Value × List Nat) :=
  match fuel with
  | 0 => .error "recursion limit exceeded"
  | fuel + 1 =>
    match s with
    | 0x22 :: r =>
      match parse_string_bytes [] r with
      | .error m => .error m
      | .ok (k, r2) =>
        match skip_ws r2 with
        | 0x3A :: r3 =>
          match parse_value fuel (skip_ws r3) with
          | .error m => .error m
          | .ok (v, r4) =>
            match skip_ws r4 with
            | 0x2C :: r5 => parse_object_elems fuel (skip_ws r5) (map_insert k v acc)
            | 0x7D :: r5 => .ok (Value.obj (map_insert k v acc), r5)
            | [] => .error "EOF while parsing an object"
            | _ => .error "expected comma or closing brace"
        | _ => .error "expected colon"
    | [] => .error "EOF while parsing an object"
    | _ => .error "key must be a string"

end

/-- `serde_json::from_slice` into a `Value`: skip leading whitespace, parse
one value, and require only whitespace to follow. -/
def json_from_slice (input : List Nat) : Except String Value :=
  match parse_value (2 * input.length + 4) (skip_ws input) with
  | .error m => .error m
  | .ok (v, rest) =>
    match skip_ws rest with
    | [] => .ok v
    | _ => .error "trailing characters"

/-! ## Format dispatch (panser.rs `deserialize` / `serialize`)

The per-format codec crates other than serde_json (decode) and rmp_serde
(encode) are external collaborators excluded from the specification's scope
(spec section 1); no claim exercises them.  They are kept as named
placeholder functions that fail with a recognizable error of the kind the
corresponding source arm wraps. -/

/-- Placeholder for the external `bincode::deserialize` codec. -/
def ext_decode_bincode (_input : List Nat) : POutcome Value :=
  .err (.Bincode "external codec not modelled")

/-- Placeholder for the external `serde_cbor::from_slice` codec. -/
def ext_decode_cbor (_input : List Nat) : POutcome Value :=
  .err (.Cbor "external codec not modelled")

/-- Placeholder for the external `rmp_serde::from_slice` codec. -/
def ext_decode_msgpack (_input : List Nat) : POutcome Value :=
  .err (.MsgpackDecode "external codec not modelled")

/-- Placeholder for the external `serde_pickle::from_slice` codec. -/
def ext_decode_pickle (_input : List Nat) : POutcome Value :=
  .err (.Pickle "external codec not modelled")

/-- Placeholder for the external `toml::from_slice` codec. -/
def ext_decode_toml (_input : List Nat) : POutcome Value :=
  .err (.TomlDecode "external codec not modelled")

/-- Placeholder for the external `serde_urlencoded::from_bytes` codec. -/
def ext_decode_url (_input : List Nat) : POutcome Value :=
  .err (.UrlDecode "external codec not modelled")

/-- Placeholder for the external `serde_yaml::from_slice` codec. -/
def ext_decode_yaml (_input : List Nat) : POutcome Value :=
  .err (.Yaml "external codec not modelled")

/-- `deserialize` (panser.rs lines 294-313): dispatch the input bytes to the
from-format codec, producing a universal `Value`.  Both the `Hjson` and the
`Json` arms call `serde_json::from_slice` (the source notes the Hjson crate
is unusable until it supports the current serde).  The `Envy` arm is
`unimplemented!()`, a panic. -/
def deserialize (input : List Nat) (fromf : FromFormat) : POutcome Value :=
  match fromf with
  | .Bincode => ext_decode_bincode input
  | .Cbor => ext_decode_cbor input
  | .Envy => .panic
  | .Hjson =>
    match json_from_slice input with
    | .ok v => .ok v
    | .error m => .err (.Json m)
  | .Json =>
    match json_from_slice input with
    | .ok v => .ok v
    | .error m => .err (.Json m)
  | .Msgpack => ext_decode_msgpack input
  | .Pickle => ext_decode_pickle input
  | .Toml => ext_decode_toml input
  | .Url => ext_decode_url input
  | .Yaml => ext_decode_yaml input

/-! ## Big-endian integer bytes -/

/-- The two big-endian bytes of a 16-bit value. -/
def be16enc (n : Nat) : List Nat := [n / 256 % 256, n % 256]

/-- The four big-endian bytes of a 32-bit value
(`byteorder::BigEndian::write_u32`). -/
def be32enc (n : Nat) : List Nat :=
  [n / 16777216 % 256, n / 65536 % 256, n / 256 % 256, n % 256]

/-- The eight big-endian bytes of a 64-bit value. -/
def be64enc (n : Nat) : List Nat :=
  [n / 72057594037927936 % 256, n / 281474976710656 % 256, n / 1099511627776 % 256,
   n / 4294967296 % 256, n / 16777216 % 256, n / 65536 % 256, n / 256 % 256, n % 256]

/-- Reading an unsigned 32-bit big-endian integer from the first four bytes of
a buffer (`Cursor::read_u32::<BigEndian>` over the 4-byte header buffer). -/
def be32dec (s : List Nat) : Nat :=
  ((s.getD 0 0 * 256 + s.getD 1 0) * 256 + s.getD 2 0) * 256 + s.getD 3 0

/-! ## The MessagePack encoder (rmp_serde::to_vec of a `Value`)

`serialize` sends the `Msgpack` output format to `rmp_serde::to_vec`, which
writes the most compact MessagePack representation of each value.  The
encoder is modelled here per the MessagePack wire format.  The 8-byte IEEE-754
bit pattern of an `f64` is floating-point machine representation outside this
shallow embedding (and no claim exercises it); it is kept as an unspecified
constant. -/

/-- Placeholder for the IEEE-754 double bit pattern of a float numeral; no
claim exercises float encoding. -/
def f64_bits_model (_neg : Bool) (_ip : Nat) (_frac : List Nat) (_ex : Int) : List Nat :=
  [0, 0, 0, 0, 0, 0, 0, 0]

/-- Compact MessagePack encoding of an unsigned integer (rmp `write_uint`). -/
def msgpack_uint (n : Nat) : List Nat :=
  if n < 128 then [n]
  else if n < 256 then [0xCC, n]
  else if n < 65536 then [0xCD] ++ be16enc n
  else if n < 4294967296 then [0xCE] ++ be32enc n
  else [0xCF] ++ be64enc n

/-- Compact MessagePack encoding of a negative integer (rmp `write_sint`). -/
def msgpack_sint (i : Int) : List Nat :=
  if i ≥ -32 then [(256 + i).toNat]
  else if i ≥ -128 then [0xD0, (256 + i).toNat]
  else if i ≥ -32768 then [0xD1] ++ be16enc (65536 + i).toNat
  else if i ≥ -2147483648 then [0xD2] ++ be32enc (4294967296 + i).toNat
  else [0xD3] ++ be64enc (18446744073709551616 + i).toNat

/-- MessagePack encoding of a string: length header (fixstr / str8 / str16 /
str32) followed by the UTF-8 bytes. -/
def msgpack_str (s : List Nat) : List Nat :=
  if s.length < 32 then (0xA0 + s.length) :: s
  else if s.length < 256 then 0xD9 :: s.length :: s
  else if s.length < 65536 then 0xDA :: (be16enc s.length ++ s)
  else 0xDB :: (be32enc s.length ++ s)

/-- MessagePack array header (fixarray / array16 / array32). -/
def msgpack_arr_header (n : Nat) : List Nat :=
  if n < 16 then [0x90 + n]
  else if n < 65536 then 0xDC :: be16enc n
  else 0xDD :: be32enc n

/-- MessagePack map header (fixmap / map16 / map32). -/
def msgpack_map_header (n : Nat) : List Nat :=
  if n < 16 then [0x80 + n]
  else if n < 65536 then 0xDE :: be16enc n
  else 0xDF :: be32enc n

/-- MessagePack encoding of a numeral as rmp_serde serializes a
`serde_json::Number`: `u64` via `write_uint`, `i64` via `write_sint`, `f64`
as marker 0xCB plus its eight bit-pattern bytes. -/
def msgpack_num : JNum → List Nat
  | .uint n => msgpack_uint n
  | .sint i => if i ≥ 0 then msgpack_uint i.toNat else msgpack_sint i
  | .float neg ip frac ex => 0xCB :: f64_bits_model neg ip frac ex

mutual

/-- `rmp_serde::to_vec` of a `Value`: the compact MessagePack bytes. -/
def msgpack_encode : Value → List Nat
  | .null => [0xC0]
  | .bool false => [0xC2]
  | .bool true => [0xC3]
  | .num n => msgpack_num n
  | .str s => msgpack_str s
  | .arr xs => msgpack_arr_header xs.length ++ msgpack_encode_list xs
  | .obj kvs => msgpack_map_header kvs.length ++ msgpack_encode_pairs kvs

/-- MessagePack encoding of consecutive array elements. -/
def msgpack_encode_list : List Value → List Nat
  | [] => []
  | x :: r => msgpack_encode x ++ msgpack_encode_list r

/-- MessagePack encoding of consecutive map members (string key, then value). -/
def msgpack_encode_pairs : List (List Nat × Value) → List Nat
  | [] => []
  | (k, v) :: r => msgpack_str k ++ msgpack_encode v ++ msgpack_encode_pairs r

end

/-- Placeholder for the external `bincode::serialize` codec. -/
def ext_encode_bincode (_v : Value) : Except Error (List Nat) :=
  .error (.Bincode "external codec not modelled")

/-- Placeholder for the external `serde_cbor::to_vec` codec. -/
def ext_encode_cbor (_v : Value) : Except Error (List Nat) :=
  .error (.Cbor "external codec not modelled")

/-- Placeholder for the external `serde_json::to_vec_pretty` encoder (used for
the Hjson output arm). -/
def ext_encode_json_pretty (_v : Value) : Except Error (List Nat) :=
  .error (.Json "external codec not modelled")

/-- Placeholder for the external `serde_json::to_vec` encoder. -/
def ext_encode_json (_v : Value) : Except Error (List Nat) :=
  .error (.Json "external codec not modelled")

/-- Placeholder for the external `serde_pickle::to_vec` codec. -/
def ext_encode_pickle (_v : Value) : Except Error (List Nat) :=
  .error (.Pickle "external codec not modelled")

/-- Placeholder for the external `toml::to_vec` codec. -/
def ext_encode_toml (_v : Value) : Except Error (List Nat) :=
  .error (.TomlEncode "external codec not modelled")

/-- Placeholder for the external `serde_urlencoded::to_string` codec. -/
def ext_encode_url (_v : Value) : Except Error (List Nat) :=
  .error (.UrlEncode "external codec not modelled")

/-- Placeholder for the external `serde_yaml::to_vec` codec. -/
def ext_encode_yaml (_v : Value) : Except Error (List Nat) :=
  .error (.Yaml "external codec not modelled")

/-- `serialize` (panser.rs lines 319-336): dispatch a universal `Value` to the
to-format codec, producing the output bytes.  The `Msgpack` arm
(`rmp_serde::to_vec`) cannot fail on a `Value` and is modelled concretely;
the remaining arms call external codec crates excluded from the
specification's scope and unexercised by any claim. -/
def serialize (value : Value) (tof : ToFormat) : Except Error (List Nat) :=
  match tof with
  | .Bincode => ext_encode_bincode value
  | .Cbor => ext_encode_cbor value
  | .Hjson => ext_encode_json_pretty value
  | .Json => ext_encode_json value
  | .Msgpack => .ok (msgpack_encode value)
  | .Pickle => ext_encode_pickle value
  | .Toml => ext_encode_toml value
  | .Url => ext_encode_url value
  | .Yaml => ext_encode_yaml value

/-- `transcode` (panser.rs lines 361-363): deserialize with the from format,
then serialize with the to format. -/
def transcode (input : List Nat) (fromf : FromFormat) (tof : ToFormat) :
    POutcome (List Nat) :=
  match deserialize input fromf with
  | .ok v =>
    match serialize v tof with
    | .ok bytes => .ok bytes
    | .error e => .err e
  | .err e => .err e
  | .panic => .panic

/-! ## The producer (panser.rs `read`, `read_exact`, `read_until`)

The byte source is modelled as a pure byte list (the claims concern framing
and pipeline behavior, not I/O transport, so the reader never fails with an
I/O error; end of the list is end-of-stream).  The producer loops send each
deserialized `Value` into the hand-off channel; a producer run is modelled as
the list of values sent, paired with the loop's outcome. -/

/-- The loop body state of `read_until` (panser.rs lines 425-444): `acc` holds
the bytes of the current frame collected so far, in reverse.  Per iteration,
`BufRead::read_until` collects bytes up to and including the delimiter (or to
end-of-stream), and the loop deserializes that buffer — delimiter byte
included — and sends the result; an empty buffer at end-of-stream breaks the
loop with `Ok`. -/
def read_until_go (fromf : FromFormat) (d : Nat) :
    List Nat → List Nat → List Value × POutcome Unit
  | [], acc =>
    if acc.isEmpty then ([], .ok ())
    else
      match deserialize acc.reverse fromf with
      | .ok v => ([v], .ok ())
      | .err e => ([], .err e)
      | .panic => ([], .panic)
  | b :: r, acc =>
    if b = d then
      match deserialize (acc.reverse ++ [d]) fromf with
      | .ok v =>
        let rest := read_until_go fromf d r []
        (v :: rest.1, rest.2)
      | .err e => ([], .err e)
      | .panic => ([], .panic)
    else read_until_go fromf d r (b :: acc)

/-- `read_until` (panser.rs lines 425-444): delimited framed reading of the
whole source. -/
def read_until (fromf : FromFormat) (d : Nat) (s : List Nat) :
    List Value × POutcome Unit :=
  read_until_go fromf d s []

/-- The frame segmentation performed by the `read_until` loop: the sequence of
buffers it passes to `deserialize`.  Each frame contains the delimiter byte
when one was found; a final unterminated frame is kept; an empty tail yields
no frame. -/
def split_frames_go (d : Nat) : List Nat → List Nat → List (List Nat)
  | [], acc => if acc.isEmpty then [] else [acc.reverse]
  | b :: r, acc =>
    if b = d then (acc.reverse ++ [d]) :: split_frames_go d r []
    else split_frames_go d r (b :: acc)

/-- The frames read by delimited framing over a whole source. -/
def read_until_frames (d : Nat) (s : List Nat) : List (List Nat) :=
  split_frames_go d s []

/-- `read_exact` (panser.rs lines 396-416): size-prefixed framed reading.
Each iteration reads a 4-byte header with `Read::read_exact` — any shortfall
(zero or one-to-three available bytes) surfaces as `ErrorKind::UnexpectedEof`,
which the source maps to `Error::Eof` — interprets it as a big-endian `u32`
length `n`, then reads exactly `n` body bytes the same way, and sends the
deserialized body. -/
def read_exact (fromf : FromFormat) (s : List Nat) : List Value × POutcome Unit :=
  if _h4 : s.length < 4 then ([], .err Error.Eof)
  else
    let n := be32dec (s.take 4)
    let body := s.drop 4
    if _hn : body.length < n then ([], .err Error.Eof)
    else
      match deserialize (body.take n) fromf with
      | .ok v =>
        let rest := read_exact fromf (body.drop n)
        (v :: rest.1, rest.2)
      | .err e => ([], .err e)
      | .panic => ([], .panic)
termination_by s.length
decreasing_by
  simp only [List.length_drop]
  omega

/-- `read` (panser.rs lines 449-467): the producer loop, dispatching on the
input framing.  With no framing the source is read to end and the whole
buffer is deserialized as a single message (an empty source sends nothing). -/
def read (fromf : FromFormat) (framing : Option Framing) (s : List Nat) :
    List Value × POutcome Unit :=
  match framing with
  | some Framing.Sized => read_exact fromf s
  | some (Framing.Delimited d) => read_until fromf d s
  | none =>
    if s.length > 0 then
      if ¬s.isEmpty then
        match deserialize s fromf with
        | .ok v => ([v], .ok ())
        | .err e => ([], .err e)
        | .panic => ([], .panic)
      else ([], .ok ())
    else ([], .ok ())

/-- The characterization of a producer as frame segmentation followed by a
per-frame decode loop: deserialize each raw frame in order, sending decoded
values until the first failure. -/
def decode_frames (fromf : FromFormat) : List (List Nat) → List Value × POutcome Unit
  | [] => ([], .ok ())
  | f :: fs =>
    match deserialize f fromf with
    | .ok v =>
      let rest := decode_frames fromf fs
      (v :: rest.1, rest.2)
    | .err e => ([], .err e)
    | .panic => ([], .panic)

/-! ## The consumer (panser.rs `write_data`, `write`) and the run -/

/-- ASCII byte of a digit value, uppercase for 10-15 (Rust `{:0X}`
formatting uses uppercase hexadecimal digits). -/
def digit_ascii (d : Nat) : Nat := if d < 10 then 48 + d else 55 + d

/-- The digit bytes of `n` in the given base (most significant first),
accumulated from the low end. -/
def nat_to_digits (base : Nat) : Nat → Nat → List Nat → List Nat
  | 0, _, acc => acc
  | fuel + 1, n, acc =>
    if n = 0 then acc
    else nat_to_digits base fuel (n / base) (digit_ascii (n % base) :: acc)

/-- The numeral base selected by a display radix. -/
def radix_base : Radix → Nat
  | .Binary => 2
  | .Decimal => 10
  | .Hexadecimal => 16
  | .Octal => 8

/-- One byte formatted as a numeral string in the radix (Rust `{:b}`, `{}`,
`{:0X}`, `{:o}`): minimal digits, no padding, uppercase hexadecimal. -/
def format_radix (r : Radix) (b : Nat) : List Nat :=
  if b = 0 then [0x30] else nat_to_digits (radix_base r) b b []

/-- `write_data` (panser.rs lines 476-490): with no radix the bytes are
written verbatim; with a radix each byte is written as its numeral string
followed by one space. -/
def write_data (radix : Option Radix) (data : List Nat) : List Nat :=
  match radix with
  | none => data
  | some r => (data.map (fun b => format_radix r b ++ [0x20])).flatten

/-- `write` (panser.rs lines 502-539): the consumer loop.  Each value received
from the channel is serialized with the to format; for `Sized` output framing
the 4-byte big-endian length (`encoded_data.len() as u32`) is written through
`write_data` first; the payload is written through `write_data`; for
`Delimited` output framing the delimiter byte is then written as raw binary
(never radix-formatted); the sink is flushed (a no-op on a pure byte sink).
Returns the bytes written and the loop result. -/
def write (tof : ToFormat) (framing : Option Framing) (radix : Option Radix) :
    List Value → List Nat × Except Error Unit
  | [] => ([], .ok ())
  | v :: rest =>
    match serialize v tof with
    | .error e => ([], .error e)
    | .ok encoded =>
      let sized_header :=
        match framing with
        | some Framing.Sized => write_data radix (be32enc (encoded.length % 4294967296))
        | _ => []
      let delim_suffix :=
        match framing with
        | some (Framing.Delimited d) => [d]
        | _ => []
      let tail := write tof framing radix rest
      (sized_header ++ write_data radix encoded ++ delim_suffix ++ tail.1, tail.2)

/-- The bytes `write` emits for one payload under `Sized` output framing with
no display radix: the 4-byte big-endian length (after the `as u32` cast)
followed by the payload. -/
def write_frame_sized (payload : List Nat) : List Nat :=
  write_data none (be32enc (payload.length % 4294967296)) ++ write_data none payload

/-- The bytes `write` emits for one payload under `Delimited` output framing
with no display radix: the payload followed by the single delimiter byte. -/
def write_frame_delimited (payload : List Nat) (d : Nat) : List Nat :=
  write_data none payload ++ [d]

/-- The `or_else` wrapper in the producer thread (panser.rs lines 225-232):
`Error::Eof` is the normal termination signal and is converted to success;
every other outcome passes through. -/
def eof_ok : POutcome Unit → POutcome Unit
  | .err Error.Eof => .ok ()
  | x => x

/-- `Panser::run` (panser.rs lines 142-257) after configuration resolution,
for a single input source.  The producer thread reads and sends values,
converts `Eof` to success, and panics with the error value otherwise; the
consumer loop runs on the calling thread; `write(...)?` surfaces a consumer
error first, then `handle.join()?` converts a producer panic payload through
`From<Box<dyn Any>>`.  With one producer, one consumer and a FIFO channel,
the concurrent execution is observationally equivalent to this sequential
composition: the consumer processes exactly the sent values in order.
Returns the bytes written to the sink and the run result. -/
def runPipeline (input_framing output_framing : Option Framing)
    (fromf : FromFormat) (tof : ToFormat) (radix : Option Radix)
    (input : List Nat) : List Nat × Except Error Unit :=
  let produced := read fromf input_framing input
  let thread_outcome := eof_ok produced.2
  let consumed := write tof output_framing radix produced.1
  let result : Except Error Unit :=
    match consumed.2 with
    | .error ce => .error ce
    | .ok _ =>
      match thread_outcome with
      | .ok _ => .ok ()
      | .err e => .error (from_any (some e))
      | .panic => .error (from_any none)
  (consumed.1, result)

/-! ## Shared helper lemmas -/

/-- The 4-byte big-endian encoding decodes back to the encoded value for any
value fitting 32 bits. -/
theorem be32_roundtrip (n : Nat) (h : n < 4294967296) : be32dec (be32enc n) = n := by
  simp only [be32enc, be32dec, List.getD_cons_zero, List.getD_cons_succ]
  omega

/-- The big-endian 32-bit encoding always has four bytes. -/
theorem be32enc_length (n : Nat) : (be32enc n).length = 4 := rfl

/-- With no display radix, `write_data` writes the bytes verbatim. -/
theorem write_data_none (data : List Nat) : write_data none data = data := rfl

/-- The producer thread's `or_else` leaves every non-`Eof` error untouched. -/
theorem eof_ok_err (e : Error) (h : e ≠ Error.Eof) :
    eof_ok (POutcome.err e) = POutcome.err e := by
  cases e
  case Eof => exact absurd rfl h
  all_goals rfl

/-- The digit loop of `u8::from_str_radix` never returns a value above the
`u8` range it checks against. -/
theorem parse_digits_le (radix : Nat) :
    ∀ (s : List Char) (acc : Nat), acc ≤ 255 →
      ∀ v, parse_digits radix s acc = .ok v → v ≤ 255
  | [], acc, hacc, v, hv => by
      simp only [parse_digits, Except.ok.injEq] at hv
      exact hv ▸ hacc
  | c :: r, acc, hacc, v, hv => by
      match hd : digit_val c with
      | none =>
        simp only [parse_digits, hd] at hv
        exact absurd hv (by simp)
      | some dv =>
        simp only [parse_digits, hd] at hv
        by_cases h1 : dv ≥ radix
        · rw [if_pos h1] at hv; exact absurd hv (by simp)
        · rw [if_neg h1] at hv
          by_cases h2 : acc * radix + dv > 255
          · rw [if_pos h2] at hv; exact absurd hv (by simp)
          · rw [if_neg h2] at hv
            exact parse_digits_le radix r (acc * radix + dv) (by omega) v hv

/-- `u8::from_str_radix` only succeeds with a byte value. -/
theorem from_str_radix_u8_le (s : List Char) (radix : Nat) (v : Nat)
    (h : from_str_radix_u8 s radix = .ok v) : v ≤ 255 := by
  unfold from_str_radix_u8 at h
  split at h
  all_goals first
    | exact absurd h (by simp)
    | exact parse_digits_le radix _ 0 (by omega) v h

/-- A character list of ASCII characters has UTF-8 byte length equal to its
character count. -/
theorem rust_str_len_ascii :
    ∀ s : List Char, (∀ a ∈ s, a.utf8Size = 1) → rust_str_len s = s.length
  | [], _ => rfl
  | c :: r, h => by
      have hc := h c (by simp)
      have hr := rust_str_len_ascii r (fun a ha => h a (by simp [ha]))
      simp only [rust_str_len, List.map_cons, List.sum_cons, hc, List.length_cons]
      simp only [rust_str_len] at hr
      omega

/-- The delimited producer loop is frame segmentation followed by per-frame
decoding, for any loop state. -/
theorem read_until_go_decode (fromf : FromFormat) (d : Nat) :
    ∀ (s acc : List Nat),
      read_until_go fromf d s acc = decode_frames fromf (split_frames_go d s acc)
  | [], acc => by
      by_cases h : acc.isEmpty
      · simp [read_until_go, split_frames_go, h, decode_frames]
      · simp only [read_until_go, split_frames_go, h, Bool.false_eq_true, ite_false]
        cases hdes : deserialize acc.reverse fromf <;> simp [decode_frames, hdes]
  | b :: r, acc => by
      by_cases h : b = d
      · simp only [read_until_go, split_frames_go, h, if_pos]
        cases hdes : deserialize (acc.reverse ++ [d]) fromf <;>
          simp [decode_frames, hdes, read_until_go_decode fromf d r []]
      · simp only [read_until_go, split_frames_go, if_neg h]
        exact read_until_go_decode fromf d r (b :: acc)

/-- The one-step unfolding of the size-prefixed producer loop. -/
theorem read_exact_eq (fromf : FromFormat) (s : List Nat) :
    read_exact fromf s =
      if s.length < 4 then ([], .err Error.Eof)
      else if (s.drop 4).length < be32dec (s.take 4) then ([], .err Error.Eof)
      else
        match deserialize ((s.drop 4).take (be32dec (s.take 4))) fromf with
        | .ok v =>
          (v :: (read_exact fromf ((s.drop 4).drop (be32dec (s.take 4)))).1,
            (read_exact fromf ((s.drop 4).drop (be32dec (s.take 4)))).2)
        | .err e => ([], .err e)
        | .panic => ([], .panic) := by
  rw [read_exact]
  simp only [dite_eq_ite]

/-- The consumer loop emits nothing and succeeds on an empty channel. -/
theorem write_nil (tof : ToFormat) (framing : Option Framing) (radix : Option Radix) :
    write tof framing radix [] = ([], Except.ok ()) := rfl

/-- A sized producer run over a header-plus-truncated-body stream: the header
parses, the body read falls short, and the whole producer ends in `Eof`. -/
theorem read_exact_truncated_body (fromf : FromFormat) (n : Nat) (body : List Nat)
    (hlt : body.length < n) (hn : n < 4294967296) :
    read_exact fromf (be32enc n ++ body) = ([], .err Error.Eof) := by
  have ht : (be32enc n ++ body).take 4 = be32enc n := by
    have h := List.take_left (be32enc n) body
    rwa [be32enc_length] at h
  have hd : (be32enc n ++ body).drop 4 = body := by
    have h := List.drop_left (be32enc n) body
    rwa [be32enc_length] at h
  rw [read_exact_eq, ht, hd, be32_roundtrip n hn,
    if_neg (by simp [be32enc]), if_pos hlt]

/-! ## The claims -/

/-- C1: the claim states that for `Delimited(d)` framing, reading a frame
strips the marker byte, so that reading back a written frame
(payload followed by the single marker byte `d`) yields exactly the payload.
The code contradicts this (and the doc comment of `Panser::delimited_input`,
which promises that "all bytes up to the delimiter byte are transcoded"):
`BufRead::read_until` appends the delimiter to the buffer and `read_until`
passes that buffer to `deserialize` unchanged.  At payload `[0x31]` with
delimiter `0x0A`, the frame read back from the written bytes is
`[0x31, 0x0A]` — marker included — and not the payload `[0x31]`. -/
theorem c1_delimited_marker_not_stripped :
    read_until_frames 10 (write_frame_delimited [0x31] 10) = [[0x31, 10]] ∧
    [[0x31, 10]] ≠ [[0x31]] := by
  constructor
  · rfl
  · decide

/-- C5 counterexample: the claim states the producer hands each frame's raw,
undecoded bytes to the channel and performs no decoding (decoding happening
only in the consumer).  On the delimited input `[0x78, 0x0A]` ("x" plus
delimiter) the framing layer yields exactly one well-formed frame, yet the
producer loop fails with a JSON decode error and sends nothing — the decode
of the from format demonstrably happens inside the producer, refuting the
claim. -/
theorem c5_producer_decodes_counterexample :
    read_until FromFormat.Json 10 [0x78, 0x0A]
      = ([], POutcome.err (Error.Json "expected value")) ∧
    read_until_frames 10 [0x78, 0x0A] = [[0x78, 0x0A]] := by
  exact ⟨rfl, rfl⟩

/-- C5 as amended: the producer decodes each frame itself — the delimited
producer loop is exactly frame segmentation followed by an in-order per-frame
`deserialize`, sending decoded `Value`s (not raw bytes) until the first
failure; the consumer (`write`) only encodes and writes. -/
theorem c5_producer_is_split_then_decode (fromf : FromFormat) (d : Nat) (s : List Nat) :
    read_until fromf d s = decode_frames fromf (read_until_frames d s) :=
  read_until_go_decode fromf d s []

/-- C7: transcoding the UTF-8 bytes of the JSON text of an object with the
single member "bool" set to true, from JSON to MessagePack, succeeds and
returns exactly the seven bytes 81 A4 62 6F 6F 6C C3. -/
theorem c7_json_to_msgpack_concrete :
    transcode [0x7B, 0x22, 0x62, 0x6F, 0x6F, 0x6C, 0x22, 0x3A, 0x74, 0x72, 0x75, 0x65, 0x7D]
      FromFormat.Json ToFormat.Msgpack
      = POutcome.ok [0x81, 0xA4, 0x62, 0x6F, 0x6F, 0x6C, 0xC3] := rfl

/-- C9: the delimiter-string parser is not total — on the empty string,
`s.chars().last().unwrap()` panics (modelled as `none`) instead of returning
a parse error value. -/
theorem c9_empty_delimiter_panics : to_framing_delimited [] = none := rfl

/-- C10: for every byte-slice input, deserializing with the Hjson from-format
returns exactly the same result as deserializing with the JSON from-format:
both match arms of `deserialize` call `serde_json::from_slice`. -/
theorem c10_hjson_json_decode_eq (input : List Nat) :
    deserialize input FromFormat.Hjson = deserialize input FromFormat.Json := rfl

/-- C2 counterexample: the claim states that an error in the producer stage
reaches the caller of the run with its kind (and exit-code classification)
preserved and is never collapsed into a generic error.  On the delimited
input `[0x78]` ("x"), the producer fails with a JSON decode error (exit code
1), yet the run delivers `Error::Generic` of its display message (exit code
2): the `From` conversion of the joined panic payload (lib.rs lines 578-585)
wraps even a successfully downcast `Error` as `Generic`, collapsing the
kind. -/
theorem c2_kind_collapsed_counterexample :
    (read FromFormat.Json (some (Framing.Delimited 10)) [0x78]).2
      = POutcome.err (Error.Json "expected value") ∧
    (runPipeline (some (Framing.Delimited 10)) none FromFormat.Json ToFormat.Msgpack none
        [0x78]).2
      = Except.error (Error.Generic "expected value") ∧
    Error.code (Error.Generic "expected value") ≠ Error.code (Error.Json "expected value") := by
  refine ⟨rfl, rfl, ?_⟩
  decide

/-- C2 as amended: across the producer/consumer thread boundary only the
error's display message survives.  Whenever the producer fails with any
non-`Eof` error `e` and the consumer itself succeeds, the run delivers
`Error::Generic (display e)` — the message is preserved, but the kind (and
with it the exit-code classification) is collapsed to the generic kind. -/
theorem c2_handoff_preserves_message_only
    (ifr ofr : Option Framing) (fromf : FromFormat) (tof : ToFormat)
    (radix : Option Radix) (input : List Nat) (e : Error)
    (hprod : (read fromf ifr input).2 = POutcome.err e)
    (hne : e ≠ Error.Eof)
    (hcons : (write tof ofr radix (read fromf ifr input).1).2 = Except.ok ()) :
    (runPipeline ifr ofr fromf tof radix input).2
      = Except.error (Error.Generic e.display) := by
  simp only [runPipeline, hprod, hcons, eof_ok_err e hne, from_any]

/-- C2 witness: the amended boundary behavior at a concrete input. -/
theorem c2_handoff_preserves_message_only_witness :
    (runPipeline (some (Framing.Delimited 10)) (some Framing.Sized) FromFormat.Json
        ToFormat.Msgpack none [0x79]).2
      = Except.error (Error.Generic (Error.display (Error.Json "expected value"))) :=
  c2_handoff_preserves_message_only (some (Framing.Delimited 10)) (some Framing.Sized)
    FromFormat.Json ToFormat.Msgpack none [0x79] (Error.Json "expected value")
    (by rfl) (by decide) (by rfl)

/-- C3 counterexample: the claim states that a Sized input frame declaring
body length 13 followed by only 5 bytes before end-of-stream makes the run
fail with a framing (truncated body) error.  The code instead maps the short
body read's `UnexpectedEof` to `Error::Eof`, which the producer thread's
`or_else` converts to success: the run terminates successfully (with zero
output bytes), not with an error. -/
theorem c3_truncated_body_run_succeeds :
    runPipeline (some Framing.Sized) none FromFormat.Json ToFormat.Msgpack none
      ([0, 0, 0, 13] ++ [0x61, 0x62, 0x63, 0x64, 0x65]) = ([], Except.ok ()) := by
  have hre : read_exact FromFormat.Json ([0, 0, 0, 13] ++ [0x61, 0x62, 0x63, 0x64, 0x65])
      = ([], .err Error.Eof) := by
    rw [read_exact_eq]
    rfl
  simp only [runPipeline, read, hre, eof_ok, write_nil]

/-- C3 as amended: a Sized frame whose 4-byte header declares length `n` but
whose body falls short is silently treated as end-of-stream — the run
terminates successfully and produces zero output bytes for that frame
(no error of any kind is raised). -/
theorem c3_truncated_body_silent_eof (n : Nat) (body : List Nat)
    (ofr : Option Framing) (fromf : FromFormat) (tof : ToFormat) (radix : Option Radix)
    (hlt : body.length < n) (hn : n < 4294967296) :
    runPipeline (some Framing.Sized) ofr fromf tof radix (be32enc n ++ body)
      = ([], Except.ok ()) := by
  simp only [runPipeline, read, read_exact_truncated_body fromf n body hlt hn,
    eof_ok, write_nil]

/-- C3 witness: the amended behavior at the concrete scenario (declared
length 13, five body bytes). -/
theorem c3_truncated_body_silent_eof_witness :
    runPipeline (some Framing.Sized) (some Framing.Sized) FromFormat.Json ToFormat.Msgpack
      none (be32enc 13 ++ [0x61, 0x62, 0x63, 0x64, 0x65]) = ([], Except.ok ()) :=
  c3_truncated_body_silent_eof 13 [0x61, 0x62, 0x63, 0x64, 0x65] (some Framing.Sized)
    FromFormat.Json ToFormat.Msgpack none (by decide) (by decide)

/-- C4 counterexample: the claim states that a Sized header read finding
between 1 and 3 bytes before end-of-stream is a truncated-header framing
error, a failure of the run.  The code cannot distinguish this case:
`Read::read_exact` reports `UnexpectedEof` for any shortfall, the source maps
it to `Error::Eof`, and the producer thread converts `Eof` to success — on
the two-byte input `[0, 0]` the run terminates successfully. -/
theorem c4_short_header_run_succeeds :
    runPipeline (some Framing.Sized) none FromFormat.Json ToFormat.Msgpack none [0, 0]
      = ([], Except.ok ()) := by
  have hre : read_exact FromFormat.Json [0, 0] = ([], .err Error.Eof) := by
    rw [read_exact_eq]
    rfl
  simp only [runPipeline, read, hre, eof_ok, write_nil]

/-- C4 as amended: every short read of the 4-byte Sized header — zero bytes
and one-to-three bytes alike — is uniformly mapped to the `Eof` signal and
treated as normal end-of-stream; the run terminates successfully in all such
cases, and header truncation is never distinguished from a clean end. -/
theorem c4_short_header_silent_eof (s : List Nat) (ofr : Option Framing)
    (fromf : FromFormat) (tof : ToFormat) (radix : Option Radix)
    (h : s.length < 4) :
    runPipeline (some Framing.Sized) ofr fromf tof radix s = ([], Except.ok ()) := by
  have hre : read_exact fromf s = ([], .err Error.Eof) := by
    rw [read_exact_eq, if_pos h]
  simp only [runPipeline, read, hre, eof_ok, write_nil]

/-- C4 witness: the amended behavior at a concrete three-byte input. -/
theorem c4_short_header_silent_eof_witness :
    runPipeline (some Framing.Sized) none FromFormat.Json ToFormat.Msgpack none [0, 0, 0]
      = ([], Except.ok ()) :=
  c4_short_header_silent_eof [0, 0, 0] none FromFormat.Json ToFormat.Msgpack none
    (by decide)

/-- C6 counterexample: the claim states the radix suffix is recognized
case-insensitively.  For the string "0AH" it therefore requires the suffix
`H` to select hexadecimal and the digits "0A" to yield the accepted
delimiter byte 10.  The code matches only the lowercase suffix characters,
so `H` falls into the default arm, the whole string "0AH" is parsed as a
hexadecimal numeral, and `H` — not a hexadecimal digit — makes the
configuration fail with a parse error instead. -/
theorem c6_uppercase_suffix_counterexample :
    to_framing_delimited ['0', 'A', 'H']
      = some (Except.error (Error.ParseInt ParseIntKind.invalidDigit)) ∧
    to_framing_delimited ['0', 'A', 'H']
      ≠ some (Except.ok (some (Framing.Delimited 10))) := by
  refine ⟨rfl, fun hcontra => ?_⟩
  rw [show to_framing_delimited ['0', 'A', 'H']
      = some (Except.error (Error.ParseInt ParseIntKind.invalidDigit)) from rfl] at hcontra
  simp at hcontra

/-- C6 as amended (for nonempty delimiter strings — the empty string panics,
see C9): a trailing radix suffix is recognized only in lowercase (`b`, `d`,
`h`, `o`) and selects binary, decimal, hexadecimal or octal interpretation of
the preceding characters; any other final character — uppercase suffixes
included — makes the whole string be parsed as hexadecimal (the no-suffix
default); and an accepted configuration always denotes a single byte value
at most 255, anything else failing with a parse error. -/
theorem c6_lowercase_suffix_grammar (body : List Char) (c : Char)
    (hascii : ∀ a ∈ body ++ [c], a.utf8Size = 1) :
    to_framing_delimited (body ++ [c])
      = some (match (if c = 'b' then from_str_radix_u8 body 2
                     else if c = 'd' then from_str_radix_u8 body 10
                     else if c = 'h' then from_str_radix_u8 body 16
                     else if c = 'o' then from_str_radix_u8 body 8
                     else from_str_radix_u8 (body ++ [c]) 16) with
              | .ok v => Except.ok (some (Framing.Delimited v))
              | .error e => Except.error e) ∧
    (∀ v, to_framing_delimited (body ++ [c])
        = some (Except.ok (some (Framing.Delimited v))) → v ≤ 255) := by
  have hlen : rust_str_len (body ++ [c]) = body.length + 1 := by
    rw [rust_str_len_ascii _ hascii]
    simp
  have htake : (body ++ [c]).take (rust_str_len (body ++ [c]) - 1) = body := by
    rw [hlen, Nat.add_sub_cancel]
    exact List.take_left body [c]
  have hmain : to_framing_delimited (body ++ [c])
      = some (match (if c = 'b' then from_str_radix_u8 body 2
                     else if c = 'd' then from_str_radix_u8 body 10
                     else if c = 'h' then from_str_radix_u8 body 16
                     else if c = 'o' then from_str_radix_u8 body 8
                     else from_str_radix_u8 (body ++ [c]) 16) with
              | .ok v => Except.ok (some (Framing.Delimited v))
              | .error e => Except.error e) := by
    simp only [to_framing_delimited, List.getLast?_concat, htake]
    cases hval : (if c = 'b' then from_str_radix_u8 body 2
                  else if c = 'd' then from_str_radix_u8 body 10
                  else if c = 'h' then from_str_radix_u8 body 16
                  else if c = 'o' then from_str_radix_u8 body 8
                  else from_str_radix_u8 (body ++ [c]) 16) <;> simp [hval]
  refine ⟨hmain, fun v hv => ?_⟩
  rw [hmain] at hv
  cases hval : (if c = 'b' then from_str_radix_u8 body 2
                else if c = 'd' then from_str_radix_u8 body 10
                else if c = 'h' then from_str_radix_u8 body 16
                else if c = 'o' then from_str_radix_u8 body 8
                else from_str_radix_u8 (body ++ [c]) 16) with
  | ok w =>
    rw [hval] at hv
    simp only [Option.some.injEq, Except.ok.injEq, Framing.Delimited.injEq] at hv
    subst hv
    split_ifs at hval <;> exact from_str_radix_u8_le _ _ _ hval
  | error e =>
    rw [hval] at hv
    simp at hv

/-- C6 witness: the amended grammar at the concrete string "10d". -/
theorem c6_lowercase_suffix_grammar_witness :
    to_framing_delimited ['1', '0', 'd']
      = some (Except.ok (some (Framing.Delimited 10))) :=
  ((c6_lowercase_suffix_grammar ['1', '0'] 'd' (by decide)).1).trans rfl

/-- C8: Sized framing round-trips.  Writing any payload whose length fits an
unsigned 32-bit integer emits the 4-byte big-endian length followed by the
payload; reading that byte sequence back with the sized reader hands exactly
the payload — and nothing else — to the decode step and exhausts the stream
(the source couples framing with decoding, so the recovered frame is observed
through the single `deserialize` call it feeds). -/
theorem c8_sized_roundtrip (payload : List Nat) (fromf : FromFormat)
    (h : payload.length < 4294967296) :
    write_frame_sized payload = be32enc payload.length ++ payload ∧
    read_exact fromf (write_frame_sized payload)
      = (match deserialize payload fromf with
         | .ok v => ([v], POutcome.err Error.Eof)
         | .err e => ([], POutcome.err e)
         | .panic => ([], POutcome.panic)) := by
  have hw : write_frame_sized payload = be32enc payload.length ++ payload := by
    simp [write_frame_sized, write_data, Nat.mod_eq_of_lt h]
  refine ⟨hw, ?_⟩
  have ht : (be32enc payload.length ++ payload).take 4 = be32enc payload.length := by
    have h := List.take_left (be32enc payload.length) payload
    rwa [be32enc_length] at h
  have hd : (be32enc payload.length ++ payload).drop 4 = payload := by
    have h := List.drop_left (be32enc payload.length) payload
    rwa [be32enc_length] at h
  have hnil : read_exact fromf ([] : List Nat) = ([], .err Error.Eof) := by
    rw [read_exact_eq]
    simp
  rw [hw, read_exact_eq, ht, hd, be32_roundtrip _ h, if_neg (by simp [be32enc]),
    if_neg (lt_irrefl _), List.take_length, List.drop_length, hnil]

/-- C8 witness: the round-trip at the concrete payload "true" (which also
decodes, exhibiting the frame content). -/
theorem c8_sized_roundtrip_witness :
    write_frame_sized [0x74, 0x72, 0x75, 0x65]
      = be32enc 4 ++ [0x74, 0x72, 0x75, 0x65] ∧
    read_exact FromFormat.Json (write_frame_sized [0x74, 0x72, 0x75, 0x65])
      = ([Value.bool true], POutcome.err Error.Eof) := by
  have h := c8_sized_roundtrip [0x74, 0x72, 0x75, 0x65] FromFormat.Json (by decide)
  exact ⟨h.1, h.2.trans rfl⟩

end Panser
